import Mathlib

/-!
Verification of the MCP user-management worker (`mcp_server.py`, `app.py`).

This file gives a shallow embedding of the request/response dispatcher, the
CRUD handlers over the `gcp_users` table, the short-identifier allocator, the
LLM proposal-recovery logic, and the client-side parameter filtering, and
proves (or refutes) the specified properties about them.

Modelling conventions:
* JSON values are the inductive `JsonV`; Python `dict.get`, truthiness
  (`x or ""`), `str.strip()`, `str.lower()` and `int()` are modelled by
  explicit functions below, with raised Python exceptions modelled as the
  `.error` case of `Except String`.
* The SQLite table is a `List UserRec` in rowid (insertion) order.  SQL
  statements are modelled row by row: `INSERT` appends and fails when the
  `id` primary key or the `email` UNIQUE constraint is violated; `UPDATE`
  rewrites matching rows and fails when the new email collides with a row it
  does not rewrite; failed statements leave the table unchanged (statement
  atomicity plus close-without-commit rollback).
* `json.loads` is modelled by a fuel-indexed recursive-descent parser.  It
  covers null / booleans / integers / strings / arrays / objects, which is
  the fragment exercised by this repository; float literals, `NaN/Infinity`
  and `\u` escapes are not modelled.
-/

/-- A JSON value as produced by `json.loads`: objects keep their key/value
pairs in textual order (lookup takes the last occurrence, as building a
Python dict does). -/
inductive JsonV where
  | null : JsonV
  | bool (b : Bool) : JsonV
  | num (n : Int) : JsonV
  | str (s : String) : JsonV
  | arr (xs : List JsonV) : JsonV
  | obj (kvs : List (String × JsonV)) : JsonV
deriving Repr

/-- Result of running a piece of Python: either a value or a raised
exception (carrying the exception class name). -/
abbrev Py (α : Type) := Except String α

/-- Python truthiness of a JSON value (`bool(x)`). -/
def jfalsy : JsonV → Bool
  | .null => true
  | .bool b => !b
  | .num n => n == 0
  | .str s => s == ""
  | .arr xs => xs.isEmpty
  | .obj kvs => kvs.isEmpty

/-- Lookup in a JSON object's pair list; the last binding wins, matching the
dict that `json.loads` builds from duplicate keys. -/
def jLookup (kvs : List (String × JsonV)) (k : String) : Option JsonV :=
  (kvs.reverse.find? (fun kv => kv.1 == k)).map (·.2)

/-- Python `j.get(k)`: `None`-or-value on a dict, `AttributeError` on any
other value. -/
def pyDictGet (j : JsonV) (k : String) : Py (Option JsonV) :=
  match j with
  | .obj kvs => .ok (jLookup kvs k)
  | _ => .error "AttributeError"

/-- Python `(v or "")` applied to an optional JSON value (`dict.get` result):
falsy values (including absence, i.e. `None`) collapse to the empty string. -/
def pyOrEmpty (v : Option JsonV) : JsonV :=
  match v with
  | none => .str ""
  | some j => if jfalsy j then .str "" else j

/-- Whitespace as stripped by `str.strip()` (ASCII fragment; the Unicode
whitespace Python additionally strips does not occur in this repository). -/
def pyWs (c : Char) : Bool :=
  c == ' ' || c == '\t' || c == '\n' || c == '\r'

/-- Strip `pyWs` characters from both ends of a character list. -/
def charTrim (l : List Char) : List Char :=
  ((l.dropWhile pyWs).reverse.dropWhile pyWs).reverse

/-- Python `s.strip()`. -/
def pyStripStr (s : String) : String :=
  ⟨charTrim s.data⟩

/-- Python `s.lower()` (ASCII fragment). -/
def pyLower (s : String) : String :=
  ⟨s.data.map Char.toLower⟩

/-- Python `.strip()` called on an arbitrary value: succeeds only on
strings, any other value raises `AttributeError`. -/
def pyStripVal (j : JsonV) : Py String :=
  match j with
  | .str s => .ok (pyStripStr s)
  | _ => .error "AttributeError"

/-- The idiom `(params.get(k) or "").strip()` used by every handler:
raises when `params` is not a dict or when the field holds a truthy
non-string. -/
def getStrParam (params : JsonV) (k : String) : Py String :=
  match pyDictGet params k with
  | .error e => .error e
  | .ok v => pyStripVal (pyOrEmpty v)

mutual

/-- Python `repr(x)` of a JSON value (string escaping inside nested string
repr is not modelled — no claim exercises it). -/
def pyRepr : JsonV → String
  | .null => "None"
  | .bool b => if b then "True" else "False"
  | .num n => toString n
  | .str s => "\'" ++ s ++ "\'"
  | .arr xs => "[" ++ pyReprArr xs ++ "]"
  | .obj kvs => "\x7b" ++ pyReprObj kvs ++ "\x7d"

/-- Comma-separated reprs of the elements of a list. -/
def pyReprArr : List JsonV → String
  | [] => ""
  | [x] => pyRepr x
  | x :: y :: xs => pyRepr x ++ ", " ++ pyReprArr (y :: xs)

/-- Comma-separated `key: value` reprs of an object's pairs. -/
def pyReprObj : List (String × JsonV) → String
  | [] => ""
  | [kv] => "\'" ++ kv.1 ++ "\': " ++ pyRepr kv.2
  | kv :: kw :: kvs => "\'" ++ kv.1 ++ "\': " ++ pyRepr kv.2 ++ ", " ++ pyReprObj (kw :: kvs)

end

/-- Python `str(x)` of a JSON value, as interpolated by an f-string. -/
def pyStr : JsonV → String
  | .str s => s
  | j => pyRepr j

/-- Python `str(x)` where `x` may be `None` (a `dict.get` result). -/
def pyStrOpt : Option JsonV → String
  | none => "None"
  | some j => pyStr j

/-! ### A model of `json.loads`

Recursive-descent parser with an explicit fuel argument (structural
recursion, so closed calls reduce in the kernel).  On success it returns the
parsed value and the unconsumed input. -/

/-- JSON whitespace (exactly the four characters `json.loads` skips). -/
def jsonWs (c : Char) : Bool :=
  c == ' ' || c == '\t' || c == '\n' || c == '\r'

/-- Drop leading JSON whitespace. -/
def skipWs (cs : List Char) : List Char :=
  cs.dropWhile jsonWs

/-- Parse the body of a JSON string literal (the opening quote already
consumed), returning the decoded characters and the rest of the input. -/
def parseStrChars : List Char → Option (List Char × List Char)
  | [] => none
  | c :: rest =>
    if c == '"' then some ([], rest)
    else if c == '\\' then
      match rest with
      | [] => none
      | e :: rest2 =>
        let dec : Option Char :=
          if e == '"' then some '"'
          else if e == '\\' then some '\\'
          else if e == '/' then some '/'
          else if e == 'n' then some '\n'
          else if e == 't' then some '\t'
          else if e == 'r' then some '\r'
          else if e == 'b' then some (Char.ofNat 8)
          else if e == 'f' then some (Char.ofNat 12)
          else none
        match dec with
        | none => none
        | some d => (parseStrChars rest2).map (fun p => (d :: p.1, p.2))
    else if c.toNat < 32 then none
    else (parseStrChars rest).map (fun p => (c :: p.1, p.2))

/-- Numeric value of a big-endian list of decimal digit characters. -/
def digitsVal (ds : List Char) : Nat :=
  ds.foldl (fun a c => 10 * a + (c.toNat - 48)) 0

/-- Parse a JSON integer literal (optional minus sign, no leading zeros;
fraction/exponent forms are outside the modelled fragment and rejected). -/
def parseNum (cs : List Char) : Option (Int × List Char) :=
  let neg : Bool := match cs with | '-' :: _ => true | _ => false
  let cs1 := if neg then cs.tail else cs
  let ds := cs1.takeWhile Char.isDigit
  let rest := cs1.dropWhile Char.isDigit
  if ds.isEmpty then none
  else if 1 < ds.length && ds.head? == some '0' then none
  else
    match rest with
    | c :: _ =>
      if c == '.' || c == 'e' || c == 'E' then none
      else some ((if neg then -(digitsVal ds : Int) else (digitsVal ds : Int)), rest)
    | [] => some ((if neg then -(digitsVal ds : Int) else (digitsVal ds : Int)), rest)

/-- Parser mode: a plain value, the tail of an array after its first
element, or the tail of an object (next `"key": value` pair expected). -/
inductive PMode where
  | val : PMode
  | arrTail (acc : List JsonV) : PMode
  | objTail (acc : List (String × JsonV)) : PMode

/-- One fuel-indexed step of the recursive-descent parser. -/
def parseStep : Nat → PMode → List Char → Option (JsonV × List Char)
  | 0, _, _ => none
  | Nat.succ fuel, .val, cs =>
    match skipWs cs with
    | [] => none
    | c :: rest =>
      if c == '"' then
        (parseStrChars rest).map (fun p => (.str ⟨p.1⟩, p.2))
      else if c == 't' then
        match rest with
        | 'r' :: 'u' :: 'e' :: r => some (.bool true, r)
        | _ => none
      else if c == 'f' then
        match rest with
        | 'a' :: 'l' :: 's' :: 'e' :: r => some (.bool false, r)
        | _ => none
      else if c == 'n' then
        match rest with
        | 'u' :: 'l' :: 'l' :: r => some (.null, r)
        | _ => none
      else if c == '[' then
        match skipWs rest with
        | ']' :: r => some (.arr [], r)
        | _ => parseStep fuel (.arrTail []) rest
      else if c == '\x7b' then
        match skipWs rest with
        | '\x7d' :: r => some (.obj [], r)
        | _ => parseStep fuel (.objTail []) rest
      else
        parseNum (c :: rest) |>.map (fun p => (.num p.1, p.2))
  | Nat.succ fuel, .arrTail acc, cs =>
    match parseStep fuel .val cs with
    | none => none
    | some (v, rest) =>
      match skipWs rest with
      | ',' :: r => parseStep fuel (.arrTail (acc ++ [v])) r
      | ']' :: r => some (.arr (acc ++ [v]), r)
      | _ => none
  | Nat.succ fuel, .objTail acc, cs =>
    match skipWs cs with
    | '"' :: r1 =>
      match parseStrChars r1 with
      | none => none
      | some (kcs, r2) =>
        match skipWs r2 with
        | ':' :: r3 =>
          match parseStep fuel .val r3 with
          | none => none
          | some (v, rest) =>
            match skipWs rest with
            | ',' :: r => parseStep fuel (.objTail (acc ++ [(⟨kcs⟩, v)])) r
            | '\x7d' :: r => some (.obj (acc ++ [(⟨kcs⟩, v)]), r)
            | _ => none
        | _ => none
    | _ => none

/-- Model of `json.loads s`: `some v` on success, `none` when Python would
raise `json.JSONDecodeError`.  The whole input (up to trailing whitespace)
must be consumed. -/
def json_loads (s : String) : Option JsonV :=
  match parseStep (2 * s.data.length + 8) .val s.data with
  | some (v, rest) => if (skipWs rest).isEmpty then some v else none
  | none => none

/-! ### Data model: the `gcp_users` table -/

/-- One row of the `gcp_users` table (`id` TEXT PRIMARY KEY, `email` TEXT
UNIQUE). -/
structure UserRec where
  id : String
  name : String
  email : String
  role : String
  created_at : String
deriving Repr, DecidableEq

/-- The table in rowid (insertion) order. -/
abbrev Store := List UserRec

/-! ### Identifier allocation (`next_user_id`) -/

/-- SQLite `id GLOB 'U[0-9]*'`: a literal `U`, one digit, then any
characters at all (GLOB `*` matches every sequence, digits or not). -/
def globU (id : String) : Bool :=
  match id.data with
  | 'U' :: c :: _ => c.isDigit
  | _ => false

/-- Numeric value of a big-endian digit-character list (shared by the
number parser and the CAST model). -/
def castIntL (l : List Char) : Nat :=
  digitsVal (l.takeWhile Char.isDigit)

/-- SQLite `CAST(substr(id, 2) AS INTEGER)`: the value of the longest
digit prefix of the id after its first character (0 when there is none).
In `next_user_id` this is only applied to GLOB matches, whose second
character is a digit, so the sign/whitespace handling of a general CAST
never comes into play. -/
def numOf (id : String) : Nat :=
  castIntL (id.data.drop 1)

/-- Python `int(s)` restricted to the shapes reachable from a GLOB match:
`some` of the value when the trimmed string is one or more digits, `none`
(a raised `ValueError`) otherwise.  (The sign and underscore forms `int`
also accepts cannot follow a digit-initial string.) -/
def pyIntParse (s : String) : Option Nat :=
  let t := charTrim s.data
  if t.isEmpty then none
  else if t.all Char.isDigit then some (digitsVal t) else none

/-- Decimal digit character of `d < 10`. -/
def digitChar (d : Nat) : Char :=
  Char.ofNat (48 + d)

/-- Big-endian decimal digits of `n`, fuel-indexed (any `fuel` with
`n < 10 ^ fuel` is enough). -/
def decChars : Nat → Nat → List Char
  | 0, _ => []
  | fuel + 1, n =>
    if n < 10 then [digitChar n]
    else decChars fuel (n / 10) ++ [digitChar (n % 10)]

/-- Decimal string of `n` (Python `str(n)` for a natural number). -/
def natStr (n : Nat) : String :=
  ⟨decChars (n + 1) n⟩

/-- Python `f"U{n:03d}"`: `U` plus `n` zero-padded to at least three
digits (wider numbers keep all their digits). -/
def fmtU (n : Nat) : String :=
  if n < 10 then "U00" ++ natStr n
  else if n < 100 then "U0" ++ natStr n
  else "U" ++ natStr n

/-- Fold step of the `ORDER BY CAST(substr(id,2) AS INTEGER) DESC LIMIT 1`
row selection: keep the GLOB-matching id with the greatest CAST value
(first such row on ties; SQLite leaves tie order unspecified and no claim
depends on it). -/
def pickMax (best : Option String) (id : String) : Option String :=
  if globU id then
    match best with
    | none => some id
    | some b => if numOf b < numOf id then some id else some b
  else best

/-- The row returned by the `SELECT ... GLOB ... ORDER BY ... DESC LIMIT 1`
query of `next_user_id`, over the current ids. -/
def maxGlobRow (ids : List String) : Option String :=
  ids.foldl pickMax none

/-- `next_user_id`: take the GLOB-matching id with the greatest CAST
value; `int(last_id[1:]) + 1` zero-padded to three digits; `U001` when no
row matches or when `int` raises (the bare `except` sets `n = 1`). -/
def next_user_id (ids : List String) : String :=
  match maxGlobRow ids with
  | none => "U001"
  | some last_id =>
    match pyIntParse ⟨last_id.data.drop 1⟩ with
    | some k => fmtU (k + 1)
    | none => fmtU 1

/-! ### Tool catalog (`handle_list_tools`) -/

/-- One entry of a tool's `params_schema` (the catalog only uses `type`
and `description`). -/
structure FieldSpec where
  type : String
  description : String
deriving Repr, DecidableEq

/-- One tool descriptor as returned by `list_tools`. -/
structure ToolDesc where
  name : String
  description : String
  required : List String
  params_schema : List (String × FieldSpec)
deriving Repr, DecidableEq

/-- The literal catalog from `handle_list_tools` (the `send_email` entry
is active in the source). -/
def toolsCatalog : List ToolDesc :=
  [ { name := "add_user",
      description := "Add a new GCP user",
      required := ["name", "email", "role"],
      params_schema :=
        [ ("name", ⟨"string", "Full name"⟩),
          ("email", ⟨"string", "Email (unique)"⟩),
          ("role", ⟨"string", "Role e.g. viewer, editor, admin"⟩) ] },
    { name := "list_users",
      description := "List all users",
      required := [],
      params_schema := [] },
    { name := "get_user",
      description := "Get a single user by short ID (e.g., U001)",
      required := ["id"],
      params_schema := [("id", ⟨"string", "Short user ID like U001"⟩)] },
    { name := "update_user",
      description := "Update fields for an existing user by short ID",
      required := ["id"],
      params_schema :=
        [ ("id", ⟨"string", "Short user ID like U001"⟩),
          ("name", ⟨"string", "New name (optional)"⟩),
          ("email", ⟨"string", "New email (optional)"⟩),
          ("role", ⟨"string", "New role (optional)"⟩) ] },
    { name := "delete_user",
      description := "Delete user by short ID",
      required := ["id"],
      params_schema := [("id", ⟨"string", "Short user ID like U001"⟩)] },
    { name := "send_email",
      description := "Send an email to a user (demo)",
      required := ["to", "subject", "body"],
      params_schema :=
        [ ("to", ⟨"string", "Recipient email"⟩),
          ("subject", ⟨"string", "Email subject"⟩),
          ("body", ⟨"string", "Email body"⟩) ] } ]

/-! ### Handlers -/

/-- Successful handler payloads (the value under the `"result"` key). -/
inductive ResultV where
  | created (u : UserRec) : ResultV
  | users (us : List UserRec) : ResultV
  | emptyObj : ResultV
  | user (u : UserRec) : ResultV
  | message (s : String) : ResultV
  | emailSent (rcpt subject preview : String) : ResultV
  | tools (ts : List ToolDesc) : ResultV
  | pong : ResultV
deriving Repr, DecidableEq

/-- A handler's returned dict: exactly one of `result` / `error`.  The
SQLite exception text interpolated into the DB error strings is elided. -/
inductive HandlerResp where
  | ok (r : ResultV) : HandlerResp
  | err (msg : String) : HandlerResp
deriving Repr, DecidableEq

/-- `handle_add_user`: trim name/role, trim-and-lowercase email, reject
empties, allocate the next id from the current ids, insert (failing on a
duplicate id or email), return the created record. -/
def handle_add_user (params : JsonV) (now : String) (store : Store) :
    Py (HandlerResp × Store) :=
  match getStrParam params "name" with
  | .error e => .error e
  | .ok nm =>
  match getStrParam params "email" with
  | .error e => .error e
  | .ok em0 =>
  let em := pyLower em0
  match getStrParam params "role" with
  | .error e => .error e
  | .ok rl =>
  if nm = "" || em = "" || rl = "" then
    .ok (.err "name, email and role are required", store)
  else
    let uid := next_user_id (store.map (·.id))
    if store.any (fun r => r.id == uid || r.email == em) then
      .ok (.err "DB insert error (likely duplicate email)", store)
    else
      let u : UserRec := ⟨uid, nm, em, rl, now⟩
      .ok (.ok (.created u), store ++ [u])

/-- Row order of `SELECT ... ORDER BY CAST(substr(id,2) AS INTEGER) ASC`. -/
def usersLe (a b : UserRec) : Prop :=
  numOf a.id ≤ numOf b.id

instance : DecidableRel usersLe := fun a b => Nat.decLe (numOf a.id) (numOf b.id)

instance : IsTotal UserRec usersLe :=
  ⟨fun a b => Nat.le_total (numOf a.id) (numOf b.id)⟩

instance : IsTrans UserRec usersLe :=
  ⟨fun _ _ _ hab hbc => Nat.le_trans hab hbc⟩

/-- The sorted listing (SQLite does not promise a tie order; insertion
sort keeps rowid order on ties, matching its actual behaviour on the
claims' tie-free stores). -/
def sortUsers (store : Store) : List UserRec :=
  store.insertionSort usersLe

/-- `handle_list_users`: ignores its params, returns every row ordered by
the numeric part of the id, ascending. -/
def handle_list_users (_params : JsonV) (store : Store) :
    Py (HandlerResp × Store) :=
  .ok (.ok (.users (sortUsers store)), store)

/-- `handle_get_user`: empty id is a validation error; a missing row is a
success carrying an explicitly empty result. -/
def handle_get_user (params : JsonV) (store : Store) :
    Py (HandlerResp × Store) :=
  match getStrParam params "id" with
  | .error e => .error e
  | .ok uid =>
  if uid = "" then .ok (.err "id is required", store)
  else
    match store.find? (fun r => r.id == uid) with
    | none => .ok (.ok .emptyObj, store)
    | some r => .ok (.ok (.user r), store)

/-- The row rewrite of `UPDATE gcp_users SET <supplied fields> WHERE id =
uid`: empty (unsupplied) fields, the id and `created_at` are untouched.
Note the email is stored as supplied (trimmed, not lowercased). -/
def applyUpd (uid nm em rl : String) (r : UserRec) : UserRec :=
  if r.id == uid then
    { r with
      name := if nm = "" then r.name else nm,
      email := if em = "" then r.email else em,
      role := if rl = "" then r.role else rl }
  else r

/-- Whether the UPDATE raises `IntegrityError`: an email is being written
to at least one row and either two matching rows receive the same email or
some untouched row already holds it.  A failed statement changes nothing
(statement atomicity; the connection is closed without commit). -/
def updConflict (uid em : String) (store : Store) : Bool :=
  em != "" &&
    (let c := store.countP (fun r => r.id == uid)
     2 ≤ c || (1 ≤ c && store.any (fun r => (!(r.id == uid)) && r.email == em)))

/-- `handle_update_user`: id required; at least one of name/email/role
required; duplicate email is an integrity error; zero affected rows is a
not-found error; otherwise supplied fields are rewritten. -/
def handle_update_user (params : JsonV) (store : Store) :
    Py (HandlerResp × Store) :=
  match getStrParam params "id" with
  | .error e => .error e
  | .ok uid =>
  match getStrParam params "name" with
  | .error e => .error e
  | .ok nm =>
  match getStrParam params "email" with
  | .error e => .error e
  | .ok em =>
  match getStrParam params "role" with
  | .error e => .error e
  | .ok rl =>
  if uid = "" then .ok (.err "id is required", store)
  else if nm = "" && em = "" && rl = "" then
    .ok (.err "At least one field (name/email/role) is required to update", store)
  else if updConflict uid em store then
    .ok (.err "DB update error (likely duplicate email)", store)
  else if store.countP (fun r => r.id == uid) = 0 then
    .ok (.err "No user found with this ID", store)
  else
    .ok (.ok (.message "User updated successfully"), store.map (applyUpd uid nm em rl))

/-- `handle_delete_user`: id required; zero affected rows is a not-found
error; otherwise the matching rows are removed. -/
def handle_delete_user (params : JsonV) (store : Store) :
    Py (HandlerResp × Store) :=
  match getStrParam params "id" with
  | .error e => .error e
  | .ok uid =>
  if uid = "" then .ok (.err "id is required", store)
  else if store.countP (fun r => r.id == uid) = 0 then
    .ok (.err "No user found with this ID", store)
  else
    .ok (.ok (.message "User deleted successfully"),
         store.filter (fun r => !(r.id == uid)))

/-- `handle_send_email` (demo): all three fields required, preview is the
first fifty characters of the body plus an ellipsis when it was longer. -/
def handle_send_email (params : JsonV) (store : Store) :
    Py (HandlerResp × Store) :=
  match getStrParam params "to" with
  | .error e => .error e
  | .ok rcpt =>
  match getStrParam params "subject" with
  | .error e => .error e
  | .ok subject =>
  match getStrParam params "body" with
  | .error e => .error e
  | .ok body =>
  if rcpt = "" || subject = "" || body = "" then
    .ok (.err "to, subject and body are required", store)
  else
    .ok (.ok (.emailSent rcpt subject
        (⟨body.data.take 50⟩ ++ (if 50 < body.data.length then "..." else ""))), store)

/-- `handle_list_tools`: ignores its params, returns the catalog. -/
def handle_list_tools (_params : JsonV) (store : Store) :
    Py (HandlerResp × Store) :=
  .ok (.ok (.tools toolsCatalog), store)

/-! ### Dispatcher (`main_loop`) -/

/-- One line written by `send_response` for a decoded request:
`{"id": ..., "method": ..., **resp}`. -/
structure Response where
  rid : Option JsonV
  method : Option JsonV
  payload : HandlerResp

/-- The `method` dispatch chain of `main_loop` (the `==` comparisons
against string literals; any other value, including `None`, falls through
to the unknown-method error, whose text interpolates `str(method)`). -/
def runMethod (m : Option JsonV) (params : JsonV) (now : String) (store : Store) :
    Py (HandlerResp × Store) :=
  match m with
  | some (.str s) =>
    if s = "add_user" then handle_add_user params now store
    else if s = "list_users" then handle_list_users params store
    else if s = "get_user" then handle_get_user params store
    else if s = "update_user" then handle_update_user params store
    else if s = "delete_user" then handle_delete_user params store
    else if s = "list_tools" then handle_list_tools params store
    else if s = "send_email" then handle_send_email params store
    else if s = "ping" then .ok (.ok .pong, store)
    else .ok (.err ("unknown method: " ++ s), store)
  | m2 => .ok (.err ("unknown method: " ++ pyStrOpt m2), store)

/-- `req.get("params", {}) or {}`. -/
def computedParams (kvs : List (String × JsonV)) : JsonV :=
  match jLookup kvs "params" with
  | none => .obj []
  | some v => if jfalsy v then .obj [] else v

/-- One dispatcher cycle on a decoded request: raises (`AttributeError`)
when the decoded value is not a dict or a handler trips over a malformed
params value; otherwise produces exactly one response. -/
def dispatch (req : JsonV) (now : String) (store : Store) :
    Py (Response × Store) :=
  match req with
  | .obj kvs =>
    match runMethod (jLookup kvs "method") (computedParams kvs) now store with
    | .error e => .error e
    | .ok (resp, store2) =>
      .ok ({ rid := jLookup kvs "id", method := jLookup kvs "method",
             payload := resp }, store2)
  | _ => .error "AttributeError"

/-- One line written by the loop: a full response, or the bare
`{"error": "invalid json: ..."}` object sent on a decode failure (the
interpolated decoder message is elided). -/
inductive OutMsg where
  | resp (r : Response) : OutMsg
  | decodeErr : OutMsg

/-- Outcome of draining the input: clean end of stream, or an uncaught
exception that terminated the process after the responses written so far. -/
inductive LoopResult where
  | finished (out : List OutMsg) (store : Store) : LoopResult
  | crashed (out : List OutMsg) (store : Store) (exc : String) : LoopResult

/-- Prefix an already-written line onto a loop outcome. -/
def pushOut (m : OutMsg) : LoopResult → LoopResult
  | .finished out st => .finished (m :: out) st
  | .crashed out st e => .crashed (m :: out) st e

/-- `main_loop` over the lines of stdin: strip, skip blanks, decode
(answering decode failures with an error line), dispatch, write exactly
one line per decoded request before reading the next; an uncaught handler
exception ends the process. -/
def main_loop (now : String) : List String → Store → LoopResult
  | [], store => .finished [] store
  | line :: rest, store =>
    let t := pyStripStr line
    if t = "" then main_loop now rest store
    else
      match json_loads t with
      | none => pushOut .decodeErr (main_loop now rest store)
      | some req =>
        match dispatch req now store with
        | .error e => .crashed [] store e
        | .ok (resp, store2) => pushOut (.resp resp) (main_loop now rest store2)

/-! ### Proposal recovery (`route_with_llm`, app.py) -/

/-- The fallback pair `{"tool": "unknown", "params": {}}`. -/
def sentinelJ : JsonV :=
  .obj [("tool", .str "unknown"), ("params", .obj [])]

/-- The slice `content[start:end+1]` for `start = content.find("{")` and
`end = content.rfind("}")`, under the source's guard
`start != -1 and end != -1 and end > start`; `none` when the guard fails. -/
def braceSlice (content : String) : Option String :=
  let cs := content.data
  match cs.findIdx? (· == '\x7b'),
        (cs.reverse.findIdx? (· == '\x7d')).map (fun i => cs.length - 1 - i) with
  | some s, some e =>
    if s < e then some ⟨(cs.drop s).take (e + 1 - s)⟩ else none
  | some _, none => none
  | none, _ => none

/-- The `parsed` value computed by `route_with_llm` from the stripped LLM
text: parse the whole text; on failure parse the first-`{`-to-last-`}`
slice; if that also fails (or there is no such slice) fall back to the
sentinel. -/
def recoverParsed (content : String) : JsonV :=
  match json_loads content with
  | some v => v
  | none =>
    match braceSlice content with
    | none => sentinelJ
    | some sub =>
      match json_loads sub with
      | some v => v
      | none => sentinelJ

/-- `route_with_llm` after the LLM reply arrives: strip the text, recover
`parsed`, then read `parsed.get("tool")` (which raises `AttributeError`
when `parsed` is not a dict) and return `parsed`. -/
def route_recover (content0 : String) : Py JsonV :=
  let parsed := recoverParsed (pyStripStr content0)
  match pyDictGet parsed "tool" with
  | .error e => .error e
  | .ok _ => .ok parsed

/-! ### Validation layer (`build_param_form`, app.py) -/

/-- The submit-time filter of `build_param_form`: a string value is kept
only when non-empty; every non-string value (numbers, booleans) is kept. -/
def cleanParams (values : List (String × JsonV)) : List (String × JsonV)  :=
  values.filter (fun kv => match kv.2 with | .str s => s ≠ "" | _ => true)

/-- Modelled from the spec: the Validation Layer's
`missing_required(required_fields, provided_arguments)` of section 4.5 is
not a function of the source (src/app.py realises the rule only implicitly
in `build_param_form`'s submit filtering, `cleanParams` above); per the
spec it returns, in order, the required fields that are absent or hold an
empty string, with numeric 0 and boolean false counting as provided. -/
def missing_required (required : List String) (args : List (String × JsonV)) :
    List String :=
  required.filter (fun f =>
    match jLookup args f with
    | none => true
    | some (.str s) => s = ""
    | some _ => false)

/-! ### Derived definitions used by the statements -/

/-- A short id in the strict sense of the spec and of the `next_user_id`
docstring: the prefix `U` followed by one or more digits and nothing else. -/
def StrictId (id : String) : Prop :=
  ∃ ds : List Char, id.data = 'U' :: ds ∧ ds ≠ [] ∧ ∀ c ∈ ds, c.isDigit = true

/-- Every row of the store has a strict short id. -/
def AllStrict (store : Store) : Prop :=
  ∀ r ∈ store, StrictId r.id

/-- The argument object of an `add_user` call with string-valued fields. -/
def mkAdd (n e r : String) : JsonV :=
  .obj [("name", .str n), ("email", .str e), ("role", .str r)]

/-- An optional string-valued field of a params object. -/
def optField (k : String) : Option String → List (String × JsonV)
  | none => []
  | some v => [(k, .str v)]

/-- The argument object of an `update_user` call: the id plus any subset of
string-valued name/email/role fields (`none` models a field the caller did
not supply). -/
def mkUpd (uid : String) (n e r : Option String) : JsonV :=
  .obj ([("id", .str uid)] ++ optField "name" n ++ optField "email" e ++
    optField "role" r)

/-- The argument object of a `get_user` / `delete_user` call. -/
def mkId (uid : String) : JsonV :=
  .obj [("id", .str uid)]

/-- The record created by an `add_user` response, if any. -/
def createdOf : HandlerResp → Option UserRec
  | .ok (.created u) => some u
  | _ => none

/-- A sequence of `add_user` calls: run each call on the store left by the
previous one, recording `some id` for a call that created a record and
`none` for one that failed (failed calls leave the store unchanged, and a
raised exception is recorded like a failure). -/
def runAdds (now : String) : List JsonV → Store → List (Option String) × Store
  | [], store => ([], store)
  | p :: ps, store =>
    match handle_add_user p now store with
    | .error _ =>
      let rest := runAdds now ps store
      (none :: rest.1, rest.2)
    | .ok (resp, store2) =>
      let rest := runAdds now ps store2
      ((createdOf resp).map (·.id) :: rest.1, rest.2)

/-- A params value every handler can consume without raising: a dict whose
values are all strings. -/
def StrObjParams (p : JsonV) : Prop :=
  ∃ pvs, p = JsonV.obj pvs ∧ ∀ kv ∈ pvs, ∃ s, kv.2 = JsonV.str s

/-- A decoded request the dispatcher fully answers: a JSON object whose
effective params value (`req.get("params", {}) or {}`) is a dict with
string values. -/
def WellTypedReq (req : JsonV) : Prop :=
  ∃ kvs, req = JsonV.obj kvs ∧ StrObjParams (computedParams kvs)

/-- An input line the loop survives: blank after stripping, undecodable, or
decoding to a well-typed request. -/
def LineOK (l : String) : Prop :=
  pyStripStr l = "" ∨ json_loads (pyStripStr l) = none ∨
    ∃ j, json_loads (pyStripStr l) = some j ∧ WellTypedReq j

/-- The method names the dispatch chain recognises. -/
def registeredMethods : List String :=
  ["add_user", "list_users", "get_user", "update_user", "delete_user",
   "list_tools", "send_email", "ping"]

/-! ### Helper lemmas: digits, decimal strings, trimming -/

theorem digitChar_toNat {d : Nat} (h : d < 10) : (digitChar d).toNat = 48 + d := by
  interval_cases d <;> rfl

theorem digitChar_isDigit {d : Nat} (h : d < 10) : (digitChar d).isDigit = true := by
  interval_cases d <;> rfl

theorem digitsVal_append (l : List Char) (c : Char) :
    digitsVal (l ++ [c]) = 10 * digitsVal l + (c.toNat - 48) := by
  simp [digitsVal, List.foldl_append]

theorem digitsVal_cons_zero (l : List Char) : digitsVal ('0' :: l) = digitsVal l := rfl

theorem decChars_spec {fuel n : Nat} (h : n < 10 ^ fuel) :
    digitsVal (decChars fuel n) = n ∧ (∀ c ∈ decChars fuel n, c.isDigit = true) ∧
      (0 < fuel → decChars fuel n ≠ []) := by
  induction fuel generalizing n with
  | zero =>
    simp only [pow_zero, Nat.lt_one_iff] at h
    subst h
    refine ⟨rfl, by simp [decChars], by simp⟩
  | succ fuel ih =>
    by_cases h10 : n < 10
    · refine ⟨?_, ?_, ?_⟩
      · simp [decChars, h10, digitsVal, digitChar_toNat h10]
      · intro c hc
        simp [decChars, h10] at hc
        subst hc
        exact digitChar_isDigit h10
      · intro _
        simp [decChars, h10]
    · have hdiv : n / 10 < 10 ^ fuel := by
        rw [Nat.div_lt_iff_lt_mul (by norm_num)]
        rw [pow_succ] at h
        exact h
      obtain ⟨hv, hd, _⟩ := ih hdiv
      refine ⟨?_, ?_, ?_⟩
      · have hm : n % 10 < 10 := Nat.mod_lt _ (by norm_num)
        simp only [decChars, if_neg h10, digitsVal_append, hv, digitChar_toNat hm]
        omega
      · intro c hc
        simp only [decChars, if_neg h10, List.mem_append, List.mem_singleton] at hc
        rcases hc with hc | hc
        · exact hd c hc
        · subst hc
          exact digitChar_isDigit (Nat.mod_lt _ (by norm_num))
      · intro _
        simp [decChars, if_neg h10]

theorem natStr_spec (n : Nat) :
    digitsVal (natStr n).data = n ∧ (∀ c ∈ (natStr n).data, c.isDigit = true) ∧
      (natStr n).data ≠ [] := by
  have h : n < 10 ^ (n + 1) :=
    lt_of_lt_of_le (Nat.lt_pow_self (by norm_num) n)
      (Nat.pow_le_pow_right (by norm_num) (Nat.le_succ n))
  have := decChars_spec h
  exact ⟨this.1, this.2.1, this.2.2 (Nat.succ_pos n)⟩

theorem takeWhile_all {p : Char → Bool} {l : List Char} (h : ∀ c ∈ l, p c = true) :
    l.takeWhile p = l :=
  List.takeWhile_eq_self_iff.mpr (by simpa using h)

theorem pyWs_isDigit_false {c : Char} (h : pyWs c = true) : c.isDigit = false := by
  simp only [pyWs, Bool.or_eq_true, beq_iff_eq] at h
  rcases h with ((h | h) | h) | h <;> subst h <;> rfl

theorem isDigit_pyWs_false {c : Char} (h : c.isDigit = true) : pyWs c = false := by
  cases hw : pyWs c
  · rfl
  · rw [pyWs_isDigit_false hw] at h
    cases h

theorem dropWhile_pyWs_digits {l : List Char} (h : ∀ c ∈ l, c.isDigit = true) :
    l.dropWhile pyWs = l := by
  cases l with
  | nil => rfl
  | cons a t =>
    rw [List.dropWhile_cons, isDigit_pyWs_false (h a (List.mem_cons_self a t))]
    simp

theorem charTrim_digits {l : List Char} (h : ∀ c ∈ l, c.isDigit = true) :
    charTrim l = l := by
  unfold charTrim
  rw [dropWhile_pyWs_digits h]
  rw [dropWhile_pyWs_digits (fun c hc => h c (List.mem_reverse.mp hc))]
  exact List.reverse_reverse l

/-! ### Helper lemmas: strict short ids and the allocator -/

theorem data_append (a b : String) : (a ++ b).data = a.data ++ b.data := rfl

theorem strictId_fmtU (n : Nat) : StrictId (fmtU n) := by
  obtain ⟨-, hd, hne⟩ := natStr_spec n
  unfold fmtU
  split_ifs with h1 h2
  · refine ⟨'0' :: '0' :: (natStr n).data, by simp [data_append], by simp, ?_⟩
    intro c hc
    simp only [List.mem_cons] at hc
    rcases hc with rfl | rfl | hc
    · rfl
    · rfl
    · exact hd c hc
  · refine ⟨'0' :: (natStr n).data, by simp [data_append], by simp, ?_⟩
    intro c hc
    simp only [List.mem_cons] at hc
    rcases hc with rfl | hc
    · rfl
    · exact hd c hc
  · exact ⟨(natStr n).data, by simp [data_append], hne, hd⟩

theorem castIntL_digits {l : List Char} (h : ∀ c ∈ l, c.isDigit = true) :
    castIntL l = digitsVal l := by
  unfold castIntL
  rw [takeWhile_all h]

theorem numOf_fmtU (n : Nat) : numOf (fmtU n) = n := by
  obtain ⟨hv, hd, -⟩ := natStr_spec n
  unfold numOf fmtU
  split_ifs with h1 h2
  · have : ("U00" ++ natStr n).data = 'U' :: '0' :: '0' :: (natStr n).data := by
      simp [data_append]
    rw [this]
    simp only [List.drop_succ_cons, List.drop_zero]
    rw [castIntL_digits ?_, digitsVal_cons_zero, digitsVal_cons_zero, hv]
    intro c hc
    simp only [List.mem_cons] at hc
    rcases hc with rfl | rfl | hc
    · rfl
    · rfl
    · exact hd c hc
  · have : ("U0" ++ natStr n).data = 'U' :: '0' :: (natStr n).data := by
      simp [data_append]
    rw [this]
    simp only [List.drop_succ_cons, List.drop_zero]
    rw [castIntL_digits ?_, digitsVal_cons_zero, hv]
    intro c hc
    simp only [List.mem_cons] at hc
    rcases hc with rfl | hc
    · rfl
    · exact hd c hc
  · have : ("U" ++ natStr n).data = 'U' :: (natStr n).data := by
      simp [data_append]
    rw [this]
    simp only [List.drop_succ_cons, List.drop_zero]
    rw [castIntL_digits hd, hv]

theorem globU_strict {id : String} (h : StrictId id) : globU id = true := by
  obtain ⟨ds, hdata, hne, hd⟩ := h
  cases ds with
  | nil => exact absurd rfl hne
  | cons c t =>
    unfold globU
    rw [hdata]
    exact hd c (List.mem_cons_self c t)

theorem numOf_strict {id : String} {ds : List Char} (hdata : id.data = 'U' :: ds)
    (hd : ∀ c ∈ ds, c.isDigit = true) : numOf id = digitsVal ds := by
  unfold numOf
  rw [hdata]
  simp only [List.drop_succ_cons, List.drop_zero]
  exact castIntL_digits hd

theorem pyIntParse_strict {id : String} (h : StrictId id) :
    pyIntParse ⟨id.data.drop 1⟩ = some (numOf id) := by
  obtain ⟨ds, hdata, hne, hd⟩ := h
  unfold pyIntParse
  rw [numOf_strict hdata hd]
  have h1 : (String.mk (id.data.drop 1)).data = ds := by rw [hdata]; rfl
  rw [h1, charTrim_digits hd]
  rw [if_neg (by simpa using hne)]
  rw [if_pos (by rw [List.all_eq_true]; exact hd)]

theorem foldlMax_init_le (l : List Nat) (a : Nat) : a ≤ l.foldl max a := by
  induction l generalizing a with
  | nil => exact le_refl a
  | cons x t ih => exact le_trans (Nat.le_max_left a x) (ih (max a x))

theorem foldlMax_le_of_mem {l : List Nat} {x : Nat} (a : Nat) (h : x ∈ l) :
    x ≤ l.foldl max a := by
  induction l generalizing a with
  | nil => cases h
  | cons y t ih =>
    rcases List.mem_cons.mp h with h | h
    · subst h
      exact le_trans (Nat.le_max_right a x) (foldlMax_init_le t (max a x))
    · exact ih (max a y) h

theorem foldl_pickMax_some {ids : List String} (b0 : String)
    (h : ∀ id ∈ ids, globU id = true) :
    ∃ b, ids.foldl pickMax (some b0) = some b ∧ (b = b0 ∨ b ∈ ids) ∧
      numOf b = (ids.map numOf).foldl max (numOf b0) := by
  induction ids generalizing b0 with
  | nil => exact ⟨b0, rfl, Or.inl rfl, rfl⟩
  | cons id t ih =>
    have hid : globU id = true := h id (List.mem_cons_self id t)
    have ht : ∀ x ∈ t, globU x = true := fun x hx => h x (List.mem_cons_of_mem id hx)
    rw [List.foldl_cons]
    by_cases hlt : numOf b0 < numOf id
    · have hp : pickMax (some b0) id = some id := by
        simp [pickMax, hid, hlt]
      rw [hp]
      obtain ⟨b, h1, h2, h3⟩ := ih id ht
      refine ⟨b, h1, ?_, ?_⟩
      · rcases h2 with h2 | h2
        · exact Or.inr (h2 ▸ List.mem_cons_self id t)
        · exact Or.inr (List.mem_cons_of_mem id h2)
      · rw [h3, List.map_cons, List.foldl_cons, Nat.max_eq_right (le_of_lt hlt)]
    · have hp : pickMax (some b0) id = some b0 := by
        simp [pickMax, hid, hlt]
      rw [hp]
      obtain ⟨b, h1, h2, h3⟩ := ih b0 ht
      refine ⟨b, h1, ?_, ?_⟩
      · rcases h2 with h2 | h2
        · exact Or.inl h2
        · exact Or.inr (List.mem_cons_of_mem id h2)
      · rw [h3, List.map_cons, List.foldl_cons, Nat.max_eq_left (le_of_not_lt hlt)]

theorem maxGlobRow_strict {ids : List String} (h : ∀ id ∈ ids, globU id = true)
    (hne : ids ≠ []) :
    ∃ b, maxGlobRow ids = some b ∧ b ∈ ids ∧
      numOf b = (ids.map numOf).foldl max 0 := by
  cases ids with
  | nil => exact absurd rfl hne
  | cons id t =>
    unfold maxGlobRow
    rw [List.foldl_cons]
    have hp : pickMax none id = some id := by
      simp [pickMax, h id (List.mem_cons_self id t)]
    rw [hp]
    obtain ⟨b, h1, h2, h3⟩ :=
      foldl_pickMax_some id (fun x hx => h x (List.mem_cons_of_mem id hx))
    refine ⟨b, h1, ?_, ?_⟩
    · rcases h2 with h2 | h2
      · exact h2 ▸ List.mem_cons_self id t
      · exact List.mem_cons_of_mem id h2
    · rw [h3, List.map_cons, List.foldl_cons, Nat.zero_max]

theorem nextId_strict {ids : List String} (h : ∀ id ∈ ids, StrictId id) :
    next_user_id ids = fmtU ((ids.map numOf).foldl max 0 + 1) := by
  by_cases hnil : ids = []
  · subst hnil
    rfl
  · obtain ⟨b, h1, h2, h3⟩ :=
      maxGlobRow_strict (fun id hid => globU_strict (h id hid)) hnil
    unfold next_user_id
    rw [h1]
    simp only [pyIntParse_strict (h b h2), h3]

/-! ### Helper lemmas: string-valued parameter extraction -/

theorem pyStripVal_orEmpty_str (s : String) :
    pyStripVal (pyOrEmpty (some (.str s))) = .ok (pyStripStr s) := by
  by_cases h : s = ""
  · subst h
    rfl
  · simp [pyOrEmpty, jfalsy, h, pyStripVal]

theorem getStrParam_lookup_none {kvs : List (String × JsonV)} {k : String}
    (h : jLookup kvs k = none) : getStrParam (.obj kvs) k = .ok "" := by
  simp [getStrParam, pyDictGet, h, pyOrEmpty, pyStripVal]
  rfl

theorem getStrParam_lookup_str {kvs : List (String × JsonV)} {k s : String}
    (h : jLookup kvs k = some (.str s)) :
    getStrParam (.obj kvs) k = .ok (pyStripStr s) := by
  simp only [getStrParam, pyDictGet, h]
  exact pyStripVal_orEmpty_str s

theorem getStr_mkAdd_name (n e r : String) :
    getStrParam (mkAdd n e r) "name" = .ok (pyStripStr n) :=
  getStrParam_lookup_str rfl

theorem getStr_mkAdd_email (n e r : String) :
    getStrParam (mkAdd n e r) "email" = .ok (pyStripStr e) :=
  getStrParam_lookup_str rfl

theorem getStr_mkAdd_role (n e r : String) :
    getStrParam (mkAdd n e r) "role" = .ok (pyStripStr r) :=
  getStrParam_lookup_str rfl

theorem getStr_mkUpd_id (uid : String) (n e r : Option String) :
    getStrParam (mkUpd uid n e r) "id" = .ok (pyStripStr uid) := by
  cases n <;> cases e <;> cases r <;> exact getStrParam_lookup_str rfl

theorem getStr_mkUpd_name (uid : String) (n e r : Option String) :
    getStrParam (mkUpd uid n e r) "name" = .ok (pyStripStr (n.getD "")) := by
  cases n <;> cases e <;> cases r <;>
    first
      | exact getStrParam_lookup_none rfl
      | exact getStrParam_lookup_str rfl

theorem getStr_mkUpd_email (uid : String) (n e r : Option String) :
    getStrParam (mkUpd uid n e r) "email" = .ok (pyStripStr (e.getD "")) := by
  cases n <;> cases e <;> cases r <;>
    first
      | exact getStrParam_lookup_none rfl
      | exact getStrParam_lookup_str rfl

theorem getStr_mkUpd_role (uid : String) (n e r : Option String) :
    getStrParam (mkUpd uid n e r) "role" = .ok (pyStripStr (r.getD "")) := by
  cases n <;> cases e <;> cases r <;>
    first
      | exact getStrParam_lookup_none rfl
      | exact getStrParam_lookup_str rfl

theorem getStr_mkId (uid : String) :
    getStrParam (mkId uid) "id" = .ok (pyStripStr uid) :=
  getStrParam_lookup_str rfl

/-! ### Helper lemmas: `handle_add_user` -/

theorem add_user_success {params : JsonV} {now : String} {store st2 : Store}
    {u : UserRec}
    (h : handle_add_user params now store = .ok (.ok (.created u), st2)) :
    ∃ nm em0 rl,
      getStrParam params "name" = .ok nm ∧
      getStrParam params "email" = .ok em0 ∧
      getStrParam params "role" = .ok rl ∧
      u = ⟨next_user_id (store.map (·.id)), nm, pyLower em0, rl, now⟩ ∧
      st2 = store ++ [u] := by
  unfold handle_add_user at h
  cases hn : getStrParam params "name" with
  | error e => rw [hn] at h; cases h
  | ok nm =>
  rw [hn] at h
  cases he : getStrParam params "email" with
  | error e => rw [he] at h; cases h
  | ok em0 =>
  rw [he] at h
  cases hr : getStrParam params "role" with
  | error e => rw [hr] at h; cases h
  | ok rl =>
  rw [hr] at h
  simp only at h
  split_ifs at h with h1 h2
  · injection h with hpair
    injection hpair with hfst hsnd
    injection hfst
  · injection h with hpair
    injection hpair with hfst hsnd
    injection hfst
  · injection h with hpair
    injection hpair with hfst hsnd
    injection hfst with hres
    injection hres with hu
    subst hu
    exact ⟨nm, em0, rl, rfl, rfl, rfl, rfl, hsnd.symm⟩

theorem add_user_nosuccess_store {params : JsonV} {now : String}
    {store st2 : Store} {resp : HandlerResp}
    (h : handle_add_user params now store = .ok (resp, st2))
    (hne : ∀ u, resp ≠ .ok (.created u)) : st2 = store := by
  unfold handle_add_user at h
  cases hn : getStrParam params "name" with
  | error e => rw [hn] at h; cases h
  | ok nm =>
  rw [hn] at h
  cases he : getStrParam params "email" with
  | error e => rw [he] at h; cases h
  | ok em0 =>
  rw [he] at h
  cases hr : getStrParam params "role" with
  | error e => rw [hr] at h; cases h
  | ok rl =>
  rw [hr] at h
  simp only at h
  split_ifs at h with h1 h2
  · injection h with hpair
    injection hpair with hfst hsnd
    exact hsnd.symm
  · injection h with hpair
    injection hpair with hfst hsnd
    exact hsnd.symm
  · injection h with hpair
    injection hpair with hfst hsnd
    exact absurd hfst.symm (hne _)

theorem createdOf_eq_some {resp : HandlerResp} {u : UserRec}
    (h : createdOf resp = some u) : resp = .ok (.created u) := by
  cases resp with
  | err m => cases h
  | ok rv => cases rv <;> simp_all [createdOf]

theorem createdOf_eq_none {resp : HandlerResp} (h : createdOf resp = none) :
    ∀ u, resp ≠ .ok (.created u) := by
  intro u hu
  subst hu
  cases h

theorem add_success_strict {params : JsonV} {now : String} {store st2 : Store}
    {u : UserRec} (hs : AllStrict store)
    (h : handle_add_user params now store = .ok (.ok (.created u), st2)) :
    st2 = store ++ [u] ∧ AllStrict st2 ∧ StrictId u.id ∧
      ∀ r ∈ store, numOf r.id < numOf u.id := by
  obtain ⟨nm, em0, rl, -, -, -, hu, hst⟩ := add_user_success h
  have hids : ∀ id ∈ store.map (·.id), StrictId id := by
    intro id hid
    obtain ⟨r, hr, rfl⟩ := List.mem_map.mp hid
    exact hs r hr
  have huid : u.id = fmtU (((store.map (·.id)).map numOf).foldl max 0 + 1) := by
    rw [hu]
    exact nextId_strict hids
  refine ⟨hst, ?_, ?_, ?_⟩
  · rw [hst]
    intro r hr
    rcases List.mem_append.mp hr with hr | hr
    · exact hs r hr
    · rw [List.mem_singleton.mp hr, huid]
      exact strictId_fmtU _
  · rw [huid]
    exact strictId_fmtU _
  · intro r hr
    rw [huid, numOf_fmtU]
    have hle : numOf r.id ≤ ((store.map (·.id)).map numOf).foldl max 0 :=
      foldlMax_le_of_mem 0 (List.mem_map_of_mem numOf (List.mem_map_of_mem _ hr))
    omega

theorem runAdds_spec (now : String) (ps : List JsonV) :
    ∀ store : Store, AllStrict store →
      AllStrict (runAdds now ps store).2 ∧
      (∀ a ∈ (runAdds now ps store).1, ∀ s, a = some s →
        ∀ r ∈ store, numOf r.id < numOf s) ∧
      List.Pairwise (fun a b => ∀ x y, a = some x → b = some y → numOf x < numOf y)
        (runAdds now ps store).1 := by
  induction ps with
  | nil =>
    intro store hs
    exact ⟨hs, by simp [runAdds], by simp [runAdds]⟩
  | cons p t ih =>
    intro store hs
    cases hh : handle_add_user p now store with
    | error e =>
      obtain ⟨i1, i2, i3⟩ := ih store hs
      simp only [runAdds, hh]
      refine ⟨i1, ?_, ?_⟩
      · intro a ha s hsome r hr
        rcases List.mem_cons.mp ha with rfl | ha
        · cases hsome
        · exact i2 a ha s hsome r hr
      · refine List.Pairwise.cons ?_ i3
        intro b _ x y hx
        cases hx
    | ok pr =>
      obtain ⟨resp, store2⟩ := pr
      cases hc : createdOf resp with
      | none =>
        have hst : store2 = store := add_user_nosuccess_store hh (createdOf_eq_none hc)
        subst hst
        obtain ⟨i1, i2, i3⟩ := ih store2 hs
        simp only [runAdds, hh, hc, Option.map_none]
        refine ⟨i1, ?_, ?_⟩
        · intro a ha s hsome r hr
          rcases List.mem_cons.mp ha with rfl | ha
          · cases hsome
          · exact i2 a ha s hsome r hr
        · refine List.Pairwise.cons ?_ i3
          intro b _ x y hx
          cases hx
      | some u =>
        have hcr := createdOf_eq_some hc
        subst hcr
        obtain ⟨hst, hs2, -, hlt⟩ := add_success_strict hs hh
        obtain ⟨i1, i2, i3⟩ := ih store2 hs2
        simp only [runAdds, hh, hc, Option.map_some]
        refine ⟨i1, ?_, ?_⟩
        · intro a ha s hsome r hr
          rcases List.mem_cons.mp ha with rfl | ha
          · cases hsome
            exact hlt r hr
          · exact i2 a ha s hsome r (by rw [hst]; exact List.mem_append_left _ hr)
        · refine List.Pairwise.cons ?_ i3
          intro b hb x y hx hy
          cases hx
          have hu : u ∈ store2 := by
            rw [hst]
            exact List.mem_append_right _ (List.mem_singleton_self u)
          exact i2 b hb y hy u hu

/-! ### Helper lemmas: `handle_update_user` -/

theorem update_user_cases {params : JsonV} {store : Store} {uid nm em rl : String}
    (hid : getStrParam params "id" = .ok uid)
    (hnm : getStrParam params "name" = .ok nm)
    (hem : getStrParam params "email" = .ok em)
    (hrl : getStrParam params "role" = .ok rl) :
    handle_update_user params store =
      (if uid = "" then .ok (.err "id is required", store)
       else if nm = "" && em = "" && rl = "" then
         .ok (.err "At least one field (name/email/role) is required to update", store)
       else if updConflict uid em store then
         .ok (.err "DB update error (likely duplicate email)", store)
       else if store.countP (fun r => r.id == uid) = 0 then
         .ok (.err "No user found with this ID", store)
       else
         .ok (.ok (.message "User updated successfully"),
              store.map (applyUpd uid nm em rl))) := by
  unfold handle_update_user
  rw [hid, hnm, hem, hrl]

theorem update_user_success {params : JsonV} {store st2 : Store}
    {uid nm em rl msg : String}
    (hid : getStrParam params "id" = .ok uid)
    (hnm : getStrParam params "name" = .ok nm)
    (hem : getStrParam params "email" = .ok em)
    (hrl : getStrParam params "role" = .ok rl)
    (h : handle_update_user params store = .ok (.ok (.message msg), st2)) :
    uid ≠ "" ∧ ¬(nm = "" ∧ em = "" ∧ rl = "") ∧
      updConflict uid em store = false ∧
      store.countP (fun r => r.id == uid) ≠ 0 ∧
      st2 = store.map (applyUpd uid nm em rl) := by
  rw [update_user_cases hid hnm hem hrl] at h
  split_ifs at h with h1 h2 h3 h4
  · injection h with hpair
    injection hpair with hfst hsnd
    injection hfst
  · injection h with hpair
    injection hpair with hfst hsnd
    injection hfst
  · injection h with hpair
    injection hpair with hfst hsnd
    injection hfst
  · injection h with hpair
    injection hpair with hfst hsnd
    injection hfst
  · injection h with hpair
    injection hpair with hfst hsnd
    refine ⟨h1, ?_, by simpa using h3, h4, hsnd.symm⟩
    intro hall
    exact h2 (by simp [hall.1, hall.2.1, hall.2.2])

/-! ### Claim C2 -/

/-- C2 (amended): `add_user` lowercases the (trimmed) email before the
record is inserted, but `update_user` stores a supplied email trimmed yet
otherwise verbatim, so the lowercase invariant is preserved by `add_user`
and is not preserved by `update_user`. -/
theorem claim_C2_email_lowercasing :
    (∀ n e r now store u st2,
        handle_add_user (mkAdd n e r) now store = .ok (.ok (.created u), st2) →
        u.email = pyLower (pyStripStr e)) ∧
    (∀ uid e store st2 msg,
        handle_update_user (mkUpd uid none (some e) none) store
          = .ok (.ok (.message msg), st2) →
        st2 = store.map (fun rec =>
          if rec.id == pyStripStr uid then
            { rec with email := pyStripStr e } else rec)) := by
  constructor
  · intro n e r now store u st2 h
    obtain ⟨nm, em0, rl, -, hem, -, hu, -⟩ := add_user_success h
    have he : em0 = pyStripStr e := by
      rw [getStr_mkAdd_email n e r] at hem
      injection hem with he
      exact he.symm
    rw [hu, he]
  · intro uid e store st2 msg h
    obtain ⟨-, hne, -, -, hst⟩ :=
      update_user_success (getStr_mkUpd_id uid none (some e) none)
        (getStr_mkUpd_name uid none (some e) none)
        (getStr_mkUpd_email uid none (some e) none)
        (getStr_mkUpd_role uid none (some e) none) h
    have hev : pyStripStr e ≠ "" := by
      intro hev
      exact hne ⟨rfl, hev, rfl⟩
    rw [hst]
    apply List.map_congr_left
    intro rec _
    unfold applyUpd
    by_cases hidm : rec.id == pyStripStr uid
    · rw [if_pos hidm, if_pos hidm]
      have hps : pyStripStr "" = "" := rfl
      simp [hev, hps]
    · rw [if_neg hidm, if_neg hidm]

/-- C2 refuted as stated: updating `U001`'s email to `Ann@X.com` succeeds
and stores the mixed-case string unchanged, so not every write operation
leaves a lowercased email. -/
theorem claim_C2_counterexample :
    handle_update_user (mkUpd "U001" none (some "Ann@X.com") none)
        [⟨"U001", "Ann", "ann@x.com", "admin", "t0"⟩]
      = .ok (.ok (.message "User updated successfully"),
             [⟨"U001", "Ann", "Ann@X.com", "admin", "t0"⟩]) ∧
    pyLower "Ann@X.com" ≠ "Ann@X.com" :=
  ⟨rfl, by decide⟩

/-- Witness for the amended C2 at a concrete successful add and update. -/
theorem claim_C2_witness :
    (∃ u st2, handle_add_user (mkAdd "Ann" " ANN@X.com " "admin") "t0" []
        = .ok (.ok (.created u), st2) ∧ u.email = pyLower (pyStripStr " ANN@X.com ")) ∧
    (∃ st2, handle_update_user (mkUpd "U001" none (some "Bob@Y.com") none)
        [⟨"U001", "Ann", "ann@x.com", "admin", "t0"⟩]
        = .ok (.ok (.message "User updated successfully"), st2) ∧
      st2 = [⟨"U001", "Ann", "Bob@Y.com", "admin", "t0"⟩]) := by
  constructor
  · refine ⟨⟨"U001", "Ann", "ann@x.com", "admin", "t0"⟩, [⟨"U001", "Ann", "ann@x.com", "admin", "t0"⟩], rfl, ?_⟩
    exact claim_C2_email_lowercasing.1 "Ann" " ANN@X.com " "admin" "t0" [] _ _ rfl
  · refine ⟨[⟨"U001", "Ann", "Bob@Y.com", "admin", "t0"⟩], rfl, ?_⟩
    have h := claim_C2_email_lowercasing.2 "U001" "Bob@Y.com"
      [⟨"U001", "Ann", "ann@x.com", "admin", "t0"⟩]
      [⟨"U001", "Ann", "Bob@Y.com", "admin", "t0"⟩] "User updated successfully" rfl
    exact h.trans rfl

/-! ### Claim C3 -/

/-- C3: the allocator matches the spec's examples (`U001` on an empty
store, `U008` after `U001/U002/U007`), but its id filter does not do what
the claim and the function's own docstring say: on a store holding `U005`
and `U12a`, the GLOB pattern `U[0-9]*` admits `U12a`, its CAST value 12
wins the ORDER BY, `int("12a")` raises, and the bare `except` returns
`U001` instead of the `U006` required by the documented only-digits
filter. -/
theorem claim_C3_allocator_eval :
    next_user_id [] = "U001" ∧
    next_user_id ["U001", "U002", "U007"] = "U008" ∧
    next_user_id ["U005", "U12a"] = "U001" ∧
    "U001" ≠ "U006" :=
  ⟨rfl, rfl, rfl, by decide⟩

/-! ### Claim C4 -/

/-- C4: from any store whose ids all match the strict short-id pattern,
the ids returned by successive (successful) `add_user` calls are strictly
increasing in numeric order, and each returned id differs from every id
already in the store (so each is unique once inserted). -/
theorem claim_C4_ids_increasing (now : String) (ps : List JsonV) (store : Store)
    (hs : AllStrict store) :
    List.Pairwise (fun a b => ∀ x y, a = some x → b = some y → numOf x < numOf y)
      (runAdds now ps store).1 ∧
    (∀ a ∈ (runAdds now ps store).1, ∀ s, a = some s → ∀ r ∈ store, r.id ≠ s) := by
  obtain ⟨-, i2, i3⟩ := runAdds_spec now ps store hs
  refine ⟨i3, ?_⟩
  intro a ha s hsome r hr heq
  have hlt := i2 a ha s hsome r hr
  rw [heq] at hlt
  exact lt_irrefl _ hlt

/-- Witness for C4: two adds on the empty store return `U001` then `U002`,
in strictly increasing numeric order. -/
theorem claim_C4_witness :
    (runAdds "t0" [mkAdd "Ann" "ann@x.com" "admin", mkAdd "Bob" "bob@x.com" "viewer"] []).1
      = [some "U001", some "U002"] ∧
    numOf "U001" < numOf "U002" := by
  have h := claim_C4_ids_increasing "t0"
    [mkAdd "Ann" "ann@x.com" "admin", mkAdd "Bob" "bob@x.com" "viewer"] []
    (fun r hr => absurd hr (List.not_mem_nil r))
  refine ⟨rfl, ?_⟩
  have h1 := h.1
  rw [show (runAdds "t0" [mkAdd "Ann" "ann@x.com" "admin", mkAdd "Bob" "bob@x.com" "viewer"] []).1
      = [some "U001", some "U002"] from rfl] at h1
  exact (List.pairwise_cons.mp h1).1 (some "U002") (List.mem_singleton_self _)
    "U001" "U002" rfl rfl

/-! ### Helper lemmas: `handle_get_user` and `handle_delete_user` -/

theorem get_user_cases {params : JsonV} {store : Store} {uid : String}
    (hid : getStrParam params "id" = .ok uid) :
    handle_get_user params store =
      (if uid = "" then .ok (.err "id is required", store)
       else match store.find? (fun r => r.id == uid) with
         | none => .ok (.ok .emptyObj, store)
         | some r => .ok (.ok (.user r), store)) := by
  unfold handle_get_user
  rw [hid]

theorem delete_user_cases {params : JsonV} {store : Store} {uid : String}
    (hid : getStrParam params "id" = .ok uid) :
    handle_delete_user params store =
      (if uid = "" then .ok (.err "id is required", store)
       else if store.countP (fun r => r.id == uid) = 0 then
         .ok (.err "No user found with this ID", store)
       else
         .ok (.ok (.message "User deleted successfully"),
              store.filter (fun r => !(r.id == uid)))) := by
  unfold handle_delete_user
  rw [hid]

/-! ### Claim C6 -/

/-- C6: for a non-empty id that matches no stored record, `get_user`
answers with a success carrying an explicitly empty result, while
`update_user` (given something to update) and `delete_user` answer with
the error `No user found with this ID`; all three leave the store
unchanged. -/
theorem claim_C6_not_found_asymmetry (uid0 : String) (store : Store)
    (n0 e0 r0 : Option String)
    (hne : ¬(pyStripStr (n0.getD "") = "" ∧ pyStripStr (e0.getD "") = "" ∧
      pyStripStr (r0.getD "") = ""))
    (h1 : pyStripStr uid0 ≠ "")
    (h2 : ∀ r ∈ store, r.id ≠ pyStripStr uid0) :
    handle_get_user (mkId uid0) store = .ok (.ok .emptyObj, store) ∧
    handle_update_user (mkUpd uid0 n0 e0 r0) store
      = .ok (.err "No user found with this ID", store) ∧
    handle_delete_user (mkId uid0) store
      = .ok (.err "No user found with this ID", store) := by
  have hcount : store.countP (fun r => r.id == pyStripStr uid0) = 0 := by
    rw [List.countP_eq_zero]
    intro r hr
    simpa using h2 r hr
  refine ⟨?_, ?_, ?_⟩
  · rw [get_user_cases (getStr_mkId uid0), if_neg h1,
      List.find?_eq_none.mpr (fun r hr => by simpa using h2 r hr)]
  · rw [update_user_cases (getStr_mkUpd_id uid0 n0 e0 r0)
      (getStr_mkUpd_name uid0 n0 e0 r0) (getStr_mkUpd_email uid0 n0 e0 r0)
      (getStr_mkUpd_role uid0 n0 e0 r0)]
    have hconf : updConflict (pyStripStr uid0) (pyStripStr (e0.getD "")) store
        = false := by
      unfold updConflict
      rw [hcount]
      simp
    rw [if_neg h1]
    rw [if_neg (fun hb => hne (by simpa [and_assoc] using hb))]
    rw [hconf]
    rw [if_neg (fun hb => Bool.false_ne_true hb)]
    rw [if_pos hcount]
  · rw [delete_user_cases (getStr_mkId uid0), if_neg h1, if_pos hcount]

/-- Witness for C6 on a one-row store and the absent id `U999`. -/
theorem claim_C6_witness :
    handle_get_user (mkId "U999") [⟨"U001", "Ann", "ann@x.com", "admin", "t0"⟩]
      = .ok (.ok .emptyObj, [⟨"U001", "Ann", "ann@x.com", "admin", "t0"⟩]) ∧
    handle_update_user (mkUpd "U999" (some "NewName") none none)
        [⟨"U001", "Ann", "ann@x.com", "admin", "t0"⟩]
      = .ok (.err "No user found with this ID",
             [⟨"U001", "Ann", "ann@x.com", "admin", "t0"⟩]) ∧
    handle_delete_user (mkId "U999") [⟨"U001", "Ann", "ann@x.com", "admin", "t0"⟩]
      = .ok (.err "No user found with this ID",
             [⟨"U001", "Ann", "ann@x.com", "admin", "t0"⟩]) :=
  claim_C6_not_found_asymmetry "U999" [⟨"U001", "Ann", "ann@x.com", "admin", "t0"⟩]
    (some "NewName") none none (by decide) (by decide) (by decide)

/-! ### Claim C7 -/

/-- C7: with a non-empty id, `update_user` rejects a call in which none of
name/email/role is present and non-empty, leaving the store unchanged; on
any successful call exactly the supplied non-empty fields of the rows
matching the id are overwritten, while absent or empty fields, the id, the
creation timestamp, and every other row are left untouched. -/
theorem claim_C7_update_frame (uid0 : String) (n0 e0 r0 : Option String)
    (store : Store) (h1 : pyStripStr uid0 ≠ "") :
    (pyStripStr (n0.getD "") = "" ∧ pyStripStr (e0.getD "") = "" ∧
        pyStripStr (r0.getD "") = "" →
      handle_update_user (mkUpd uid0 n0 e0 r0) store
        = .ok (.err "At least one field (name/email/role) is required to update",
               store)) ∧
    (∀ st2 msg,
      handle_update_user (mkUpd uid0 n0 e0 r0) store = .ok (.ok (.message msg), st2) →
      st2 = store.map (fun rec =>
        if rec.id == pyStripStr uid0 then
          { id := rec.id,
            name := if pyStripStr (n0.getD "") = "" then rec.name
                    else pyStripStr (n0.getD ""),
            email := if pyStripStr (e0.getD "") = "" then rec.email
                     else pyStripStr (e0.getD ""),
            role := if pyStripStr (r0.getD "") = "" then rec.role
                    else pyStripStr (r0.getD ""),
            created_at := rec.created_at }
        else rec)) := by
  constructor
  · intro hall
    rw [update_user_cases (getStr_mkUpd_id uid0 n0 e0 r0)
      (getStr_mkUpd_name uid0 n0 e0 r0) (getStr_mkUpd_email uid0 n0 e0 r0)
      (getStr_mkUpd_role uid0 n0 e0 r0)]
    rw [if_neg h1, if_pos (by simp [hall.1, hall.2.1, hall.2.2])]
  · intro st2 msg h
    obtain ⟨-, -, -, -, hst⟩ :=
      update_user_success (getStr_mkUpd_id uid0 n0 e0 r0)
        (getStr_mkUpd_name uid0 n0 e0 r0) (getStr_mkUpd_email uid0 n0 e0 r0)
        (getStr_mkUpd_role uid0 n0 e0 r0) h
    rw [hst]
    apply List.map_congr_left
    intro rec _
    unfold applyUpd
    by_cases hm : rec.id == pyStripStr uid0
    · rw [if_pos hm]
    · rw [if_neg hm]

/-- Witness for C7: the nothing-to-update rejection, and a successful
name-only update that changes nothing but the matching row's name. -/
theorem claim_C7_witness :
    handle_update_user (mkUpd "U001" none none none)
        [⟨"U001", "Ann", "ann@x.com", "admin", "t0"⟩]
      = .ok (.err "At least one field (name/email/role) is required to update",
             [⟨"U001", "Ann", "ann@x.com", "admin", "t0"⟩]) ∧
    ([⟨"U001", "Anna", "ann@x.com", "admin", "t0"⟩] : Store)
      = ([⟨"U001", "Ann", "ann@x.com", "admin", "t0"⟩] : Store).map (fun rec =>
          if rec.id == pyStripStr "U001" then
            ({ id := rec.id,
               name := if pyStripStr ((some "Anna").getD "") = "" then rec.name
                       else pyStripStr ((some "Anna").getD ""),
               email := if pyStripStr ((none : Option String).getD "") = "" then rec.email
                        else pyStripStr ((none : Option String).getD ""),
               role := if pyStripStr ((none : Option String).getD "") = "" then rec.role
                       else pyStripStr ((none : Option String).getD ""),
               created_at := rec.created_at } : UserRec)
          else rec) := by
  constructor
  · exact (claim_C7_update_frame "U001" none none none
      [⟨"U001", "Ann", "ann@x.com", "admin", "t0"⟩] (by decide)).1 (by decide)
  · exact (claim_C7_update_frame "U001" (some "Anna") none none
      [⟨"U001", "Ann", "ann@x.com", "admin", "t0"⟩] (by decide)).2
      [⟨"U001", "Anna", "ann@x.com", "admin", "t0"⟩] "User updated successfully" rfl

/-! ### Claim C8 -/

/-- C8: updating a record's email to an address that already belongs to a
different record fails with the duplicate-email integrity error and leaves
the store — in particular the target's email — unchanged. -/
theorem claim_C8_duplicate_email (uid0 dupE : String) (store : Store)
    (r0 r1 : UserRec) (h1 : pyStripStr uid0 ≠ "")
    (hr0 : r0 ∈ store) (hr0id : r0.id = pyStripStr uid0)
    (hr1 : r1 ∈ store) (hr1id : r1.id ≠ pyStripStr uid0)
    (hr1em : r1.email = pyStripStr dupE) (hdup : pyStripStr dupE ≠ "") :
    handle_update_user (mkUpd uid0 none (some dupE) none) store
      = .ok (.err "DB update error (likely duplicate email)", store) := by
  rw [update_user_cases (getStr_mkUpd_id uid0 none (some dupE) none)
    (getStr_mkUpd_name uid0 none (some dupE) none)
    (getStr_mkUpd_email uid0 none (some dupE) none)
    (getStr_mkUpd_role uid0 none (some dupE) none)]
  have hc1 : 1 ≤ store.countP (fun r => r.id == pyStripStr uid0) := by
    have : 0 < store.countP (fun r => r.id == pyStripStr uid0) :=
      List.countP_pos_iff.mpr ⟨r0, hr0, by simp [hr0id]⟩
    omega
  have hany : store.any
      (fun r => (!(r.id == pyStripStr uid0)) && r.email == pyStripStr dupE) = true := by
    rw [List.any_eq_true]
    exact ⟨r1, hr1, by simp [hr1id, hr1em]⟩
  have hconf : updConflict (pyStripStr uid0) (pyStripStr ((some dupE).getD "")) store
      = true := by
    unfold updConflict
    rw [show pyStripStr ((some dupE).getD "") = pyStripStr dupE from rfl]
    rw [hany]
    simp [hdup, hc1]
  rw [if_neg h1, if_neg (by simp [hdup]), if_pos hconf]

/-- Witness for C8: a two-row store where `U001` tries to take `U002`'s
email `dup@x.com`. -/
theorem claim_C8_witness :
    handle_update_user (mkUpd "U001" none (some "dup@x.com") none)
        [⟨"U001", "Ann", "ann@x.com", "admin", "t0"⟩,
         ⟨"U002", "Bob", "dup@x.com", "viewer", "t1"⟩]
      = .ok (.err "DB update error (likely duplicate email)",
             [⟨"U001", "Ann", "ann@x.com", "admin", "t0"⟩,
              ⟨"U002", "Bob", "dup@x.com", "viewer", "t1"⟩]) :=
  claim_C8_duplicate_email "U001" "dup@x.com"
    [⟨"U001", "Ann", "ann@x.com", "admin", "t0"⟩,
     ⟨"U002", "Bob", "dup@x.com", "viewer", "t1"⟩]
    ⟨"U001", "Ann", "ann@x.com", "admin", "t0"⟩
    ⟨"U002", "Bob", "dup@x.com", "viewer", "t1"⟩
    (by decide) (by decide) (by decide) (by decide) (by decide) (by decide) (by decide)

/-! ### Claim C5 -/

/-- C5: `list_users` ignores its params; it returns exactly the rows of
the store ordered ascending by the numeric part of the id; when those
numeric keys are pairwise distinct the output is independent of the rows'
insertion order; and the store holding `U002` then `U001` comes back
ordered `U001`, `U002`. -/
theorem claim_C5_listing_sorted :
    (∀ p1 p2 store, handle_list_users p1 store = handle_list_users p2 store) ∧
    (∀ (params : JsonV) (store : Store), ∃ us,
      handle_list_users params store = .ok (.ok (.users us), store) ∧
      us.Perm store ∧ us.Sorted usersLe) ∧
    (∀ s1 s2 : Store, s1.Perm s2 →
      List.Pairwise (fun a b : UserRec => numOf a.id ≠ numOf b.id) s1 →
      sortUsers s1 = sortUsers s2) ∧
    (handle_list_users (.obj [])
        [⟨"U002", "Bob", "bob@x.com", "viewer", "t1"⟩,
         ⟨"U001", "Ann", "ann@x.com", "admin", "t0"⟩]
      = .ok (.ok (.users
          [⟨"U001", "Ann", "ann@x.com", "admin", "t0"⟩,
           ⟨"U002", "Bob", "bob@x.com", "viewer", "t1"⟩]),
          [⟨"U002", "Bob", "bob@x.com", "viewer", "t1"⟩,
           ⟨"U001", "Ann", "ann@x.com", "admin", "t0"⟩])) := by
  have hlt : ∀ s : Store,
      List.Pairwise (fun a b : UserRec => numOf a.id ≠ numOf b.id) s →
      (sortUsers s).Pairwise (fun a b : UserRec => numOf a.id < numOf b.id) := by
    intro s hp
    have hs : (sortUsers s).Sorted usersLe := List.sorted_insertionSort usersLe s
    have hp2 : (sortUsers s).Pairwise (fun a b : UserRec => numOf a.id ≠ numOf b.id) :=
      ((List.perm_insertionSort usersLe s).pairwise_iff
        (fun hxy => Ne.symm hxy)).mpr hp
    exact (hs.and hp2).imp (fun hab => Nat.lt_of_le_of_ne hab.1 hab.2)
  refine ⟨fun p1 p2 store => rfl, ?_, ?_, rfl⟩
  · intro params store
    exact ⟨sortUsers store, rfl, List.perm_insertionSort usersLe store,
      List.sorted_insertionSort usersLe store⟩
  · intro s1 s2 hperm hpw
    have h1 := hlt s1 hpw
    have hpw2 : List.Pairwise (fun a b : UserRec => numOf a.id ≠ numOf b.id) s2 :=
      (hperm.pairwise_iff (fun hxy => Ne.symm hxy)).mp hpw
    have h2 := hlt s2 hpw2
    have hp12 : (sortUsers s1).Perm (sortUsers s2) :=
      (List.perm_insertionSort usersLe s1).trans
        (hperm.trans (List.perm_insertionSort usersLe s2).symm)
    haveI : IsAntisymm UserRec (fun a b : UserRec => numOf a.id < numOf b.id) :=
      ⟨fun _ _ hab hba => absurd hba (Nat.lt_asymm hab)⟩
    exact List.eq_of_perm_of_sorted hp12 h1 h2

/-- Witness for C5: the two orderings of the `U001`/`U002` rows sort to
the same listing. -/
theorem claim_C5_witness :
    sortUsers [⟨"U002", "Bob", "bob@x.com", "viewer", "t1"⟩,
               ⟨"U001", "Ann", "ann@x.com", "admin", "t0"⟩]
      = sortUsers [⟨"U001", "Ann", "ann@x.com", "admin", "t0"⟩,
                   ⟨"U002", "Bob", "bob@x.com", "viewer", "t1"⟩] :=
  claim_C5_listing_sorted.2.2.1
    [⟨"U002", "Bob", "bob@x.com", "viewer", "t1"⟩,
     ⟨"U001", "Ann", "ann@x.com", "admin", "t0"⟩]
    [⟨"U001", "Ann", "ann@x.com", "admin", "t0"⟩,
     ⟨"U002", "Bob", "bob@x.com", "viewer", "t1"⟩]
    (by decide) (by decide)

/-! ### Claim C9 -/

/-- C9 (amended): proposal recovery parses the whole stripped text and, on
failure, the first-`{`-to-last-`}` slice; when both fail (or no such slice
exists) it returns the sentinel `{"tool": "unknown", "params": {}}`
without raising, and the spec's two concrete examples behave as claimed.
However, a successfully parsed object is returned as-is even when it has
no `tool` key — the sentinel is not substituted (that case is only
neutralised downstream, where an unrecognised tool is not invoked). -/
theorem claim_C9_recovery :
    (∀ content, json_loads (pyStripStr content) = none →
      (braceSlice (pyStripStr content) = none ∨
        ∃ sub, braceSlice (pyStripStr content) = some sub ∧ json_loads sub = none) →
      route_recover content = .ok sentinelJ) ∧
    route_recover
        "Sure! \x7b\"tool\":\"add_user\",\"params\":\x7b\"name\":\"Ann\"\x7d\x7d Hope that helps."
      = .ok (.obj [("tool", .str "add_user"), ("params", .obj [("name", .str "Ann")])]) ∧
    route_recover "not json at all" = .ok sentinelJ := by
  refine ⟨?_, rfl, rfl⟩
  intro content h1 h2
  have hrp : recoverParsed (pyStripStr content) = sentinelJ := by
    unfold recoverParsed
    rw [h1]
    rcases h2 with h2 | ⟨sub, h2, h3⟩
    · simp only [h2]
    · simp only [h2, h3]
  simp only [route_recover, hrp]
  rfl

/-- C9 refuted as stated: the whole text `{"x": 1}` parses but has no
`tool` key, and recovery returns the parsed object itself, not the
sentinel. -/
theorem claim_C9_counterexample :
    route_recover "\x7b\"x\": 1\x7d" = .ok (.obj [("x", .num 1)]) ∧
    jLookup [("x", .num 1)] "tool" = none ∧
    JsonV.obj [("x", .num 1)] ≠ sentinelJ :=
  ⟨rfl, rfl, by simp [sentinelJ]⟩

/-- Witness for the amended C9 at a brace-free unparseable input. -/
theorem claim_C9_witness : route_recover "no braces here" = .ok sentinelJ :=
  claim_C9_recovery.1 "no braces here" rfl (Or.inl rfl)

/-! ### Claim C10 -/

/-- C10: a field counts as provided exactly when it is present and not the
empty string — numeric 0 and boolean false are provided — both for the
spec-modelled `missing_required` and for the submit-time filter
`cleanParams` of `build_param_form`; and
`missing_required ["a","b"] {a: 0, b: ""} = ["b"]`. -/
theorem claim_C10_provided_fields :
    missing_required ["a", "b"] [("a", .num 0), ("b", .str "")] = ["b"] ∧
    (∀ required args f, f ∈ missing_required required args ↔
      f ∈ required ∧ (jLookup args f = none ∨ jLookup args f = some (.str ""))) ∧
    (∀ values k v, (k, v) ∈ cleanParams values ↔ (k, v) ∈ values ∧ v ≠ .str "") := by
  refine ⟨rfl, ?_, ?_⟩
  · intro required args f
    unfold missing_required
    rw [List.mem_filter]
    cases hl : jLookup args f with
    | none => simp [hl]
    | some v => cases v <;> simp [hl]
  · intro values k v
    unfold cleanParams
    rw [List.mem_filter]
    cases v <;> simp

/-- Witness for C10: zero is provided, the empty string is not. -/
theorem claim_C10_witness :
    "b" ∈ missing_required ["a", "b"] [("a", .num 0), ("b", .str "")] ∧
    ("a", JsonV.num 0) ∈ cleanParams [("a", .num 0), ("b", .str "")] := by
  constructor
  · exact (claim_C10_provided_fields.2.1 ["a", "b"]
      [("a", .num 0), ("b", .str "")] "b").mpr
      ⟨by simp, Or.inr rfl⟩
  · exact (claim_C10_provided_fields.2.2 [("a", .num 0), ("b", .str "")]
      "a" (.num 0)).mpr ⟨by simp, by simp⟩

/-! ### Helper lemmas: dispatcher totality on well-typed requests -/

theorem jLookup_mem {kvs : List (String × JsonV)} {k : String} {v : JsonV}
    (h : jLookup kvs k = some v) : ∃ kv ∈ kvs, kv.2 = v := by
  unfold jLookup at h
  cases hf : kvs.reverse.find? (fun kv => kv.1 == k) with
  | none => rw [hf] at h; cases h
  | some kv =>
    rw [hf] at h
    injection h with h
    exact ⟨kv, List.mem_reverse.mp (List.mem_of_find?_eq_some hf), h⟩

theorem getStrParam_ok {p : JsonV} (hp : StrObjParams p) (k : String) :
    ∃ s, getStrParam p k = .ok s := by
  obtain ⟨pvs, rfl, hvals⟩ := hp
  cases hl : jLookup pvs k with
  | none => exact ⟨"", getStrParam_lookup_none hl⟩
  | some v =>
    obtain ⟨kv, hmem, hv⟩ := jLookup_mem hl
    obtain ⟨s, hs⟩ := hvals kv hmem
    have hvs : v = .str s := hv.symm.trans hs
    subst hvs
    exact ⟨pyStripStr s, getStrParam_lookup_str hl⟩

theorem handle_add_user_total {p : JsonV} (hp : StrObjParams p) (now : String)
    (store : Store) : ∃ out, handle_add_user p now store = .ok out := by
  obtain ⟨nm, hn⟩ := getStrParam_ok hp "name"
  obtain ⟨em, he⟩ := getStrParam_ok hp "email"
  obtain ⟨rl, hr⟩ := getStrParam_ok hp "role"
  unfold handle_add_user
  rw [hn, he, hr]
  simp only
  split_ifs <;> exact ⟨_, rfl⟩

theorem handle_get_user_total {p : JsonV} (hp : StrObjParams p) (store : Store) :
    ∃ out, handle_get_user p store = .ok out := by
  obtain ⟨uid, hid⟩ := getStrParam_ok hp "id"
  rw [get_user_cases hid]
  split_ifs
  · exact ⟨_, rfl⟩
  · cases store.find? (fun r => r.id == uid) <;> exact ⟨_, rfl⟩

theorem handle_update_user_total {p : JsonV} (hp : StrObjParams p) (store : Store) :
    ∃ out, handle_update_user p store = .ok out := by
  obtain ⟨uid, hid⟩ := getStrParam_ok hp "id"
  obtain ⟨nm, hn⟩ := getStrParam_ok hp "name"
  obtain ⟨em, he⟩ := getStrParam_ok hp "email"
  obtain ⟨rl, hr⟩ := getStrParam_ok hp "role"
  rw [update_user_cases hid hn he hr]
  split_ifs <;> exact ⟨_, rfl⟩

theorem handle_delete_user_total {p : JsonV} (hp : StrObjParams p) (store : Store) :
    ∃ out, handle_delete_user p store = .ok out := by
  obtain ⟨uid, hid⟩ := getStrParam_ok hp "id"
  rw [delete_user_cases hid]
  split_ifs <;> exact ⟨_, rfl⟩

theorem handle_send_email_total {p : JsonV} (hp : StrObjParams p) (store : Store) :
    ∃ out, handle_send_email p store = .ok out := by
  obtain ⟨rt, ht⟩ := getStrParam_ok hp "to"
  obtain ⟨sj, hs⟩ := getStrParam_ok hp "subject"
  obtain ⟨bd, hb⟩ := getStrParam_ok hp "body"
  unfold handle_send_email
  rw [ht, hs, hb]
  simp only
  split_ifs <;> exact ⟨_, rfl⟩

theorem runMethod_total {m : Option JsonV} {params : JsonV}
    (hp : StrObjParams params) (now : String) (store : Store) :
    ∃ out, runMethod m params now store = .ok out := by
  cases m with
  | none => exact ⟨_, rfl⟩
  | some j =>
    cases j with
    | str s =>
      simp only [runMethod]
      split_ifs
      · exact handle_add_user_total hp now store
      · exact ⟨_, rfl⟩
      · exact handle_get_user_total hp store
      · exact handle_update_user_total hp store
      · exact handle_delete_user_total hp store
      · exact ⟨_, rfl⟩
      · exact handle_send_email_total hp store
      · exact ⟨_, rfl⟩
      · exact ⟨_, rfl⟩
    | null => exact ⟨_, rfl⟩
    | bool b => exact ⟨_, rfl⟩
    | num n => exact ⟨_, rfl⟩
    | arr xs => exact ⟨_, rfl⟩
    | obj kvs => exact ⟨_, rfl⟩

theorem dispatch_total {req : JsonV} (hw : WellTypedReq req) (now : String)
    (store : Store) : ∃ resp st2, dispatch req now store = .ok (resp, st2) := by
  obtain ⟨kvs, rfl, hp⟩ := hw
  obtain ⟨out, hout⟩ := runMethod_total (m := jLookup kvs "method") hp now store
  obtain ⟨resp, st2⟩ := out
  simp only [dispatch]
  rw [hout]
  exact ⟨_, _, rfl⟩

theorem dispatch_unknown {kvs : List (String × JsonV)} {m : String}
    (hm : jLookup kvs "method" = some (.str m)) (hreg : m ∉ registeredMethods)
    (now : String) (store : Store) :
    dispatch (.obj kvs) now store =
      .ok ({ rid := jLookup kvs "id", method := some (.str m),
             payload := .err ("unknown method: " ++ m) }, store) := by
  simp only [registeredMethods, List.mem_cons, List.not_mem_nil, or_false,
    not_or] at hreg
  obtain ⟨h1, h2, h3, h4, h5, h6, h7, h8⟩ := hreg
  have hrun : runMethod (some (.str m)) (computedParams kvs) now store
      = .ok (.err ("unknown method: " ++ m), store) := by
    simp only [runMethod]
    rw [if_neg h1, if_neg h2, if_neg h3, if_neg h4, if_neg h5, if_neg h6,
      if_neg h7, if_neg h8]
  simp only [dispatch]
  rw [hm, hrun]

theorem main_loop_total (now : String) :
    ∀ (lines : List String) (store : Store), (∀ l ∈ lines, LineOK l) →
      ∃ out st2, main_loop now lines store = .finished out st2 ∧
        out.length = lines.countP (fun l => !(pyStripStr l == "")) := by
  intro lines
  induction lines with
  | nil => exact fun store _ => ⟨[], store, rfl, rfl⟩
  | cons l t ih =>
    intro store h
    have hl := h l (List.mem_cons_self l t)
    have ht := fun x hx => h x (List.mem_cons_of_mem l hx)
    by_cases hb : pyStripStr l = ""
    · obtain ⟨out, st2, h1, h2⟩ := ih store ht
      refine ⟨out, st2, ?_, ?_⟩
      · simp only [main_loop]
        rw [if_pos hb]
        exact h1
      · rw [List.countP_cons, h2]
        simp [hb]
    · rcases hl with hb2 | hjson | ⟨j, hj, hwt⟩
      · exact absurd hb2 hb
      · obtain ⟨out, st2, h1, h2⟩ := ih store ht
        refine ⟨.decodeErr :: out, st2, ?_, ?_⟩
        · simp only [main_loop]
          rw [if_neg hb, hjson, h1]
          rfl
        · rw [List.length_cons, List.countP_cons, h2]
          simp [hb]
      · obtain ⟨resp, st2, hd⟩ := dispatch_total hwt now store
        obtain ⟨out, st3, h1, h2⟩ := ih st2 ht
        refine ⟨.resp resp :: out, st3, ?_, ?_⟩
        · simp only [main_loop]
          rw [if_neg hb, hj]
          simp only [hd, h1]
          rfl
        · rw [List.length_cons, List.countP_cons, h2]
          simp [hb]

/-! ### Claim C1 -/

/-- C1 (amended): for input lines that are blank, undecodable, or decode
to well-typed requests (JSON objects whose effective params value is an
object with string values), the read loop never terminates early and
writes exactly one output line per non-blank input line, in order; every
well-typed decoded request gets exactly one Response, the handlers'
business-rule failures having been returned as error payloads rather than
exceptions; and a request whose method is an unregistered string is
answered with the error `unknown method: <method>`, leaving the store
unchanged.  (A decoded request with a registered method but a
non-string-typed params value, by contrast, raises inside the handler and
terminates the loop with that request unanswered — see the
counterexample.) -/
theorem claim_C1_one_response_per_request (now : String) :
    (∀ lines store, (∀ l ∈ lines, LineOK l) →
      ∃ out st2, main_loop now lines store = .finished out st2 ∧
        out.length = lines.countP (fun l => !(pyStripStr l == ""))) ∧
    (∀ req store, WellTypedReq req →
      ∃ resp st2, dispatch req now store = .ok (resp, st2)) ∧
    (∀ kvs m store, jLookup kvs "method" = some (.str m) →
      m ∉ registeredMethods →
      dispatch (.obj kvs) now store =
        .ok ({ rid := jLookup kvs "id", method := some (.str m),
               payload := .err ("unknown method: " ++ m) }, store)) :=
  ⟨main_loop_total now,
   fun _ store hw => dispatch_total hw now store,
   fun _ _ store hm hreg => dispatch_unknown hm hreg now store⟩

/-- C1 refuted as stated: the decoded request
`{"method": "get_user", "params": {"id": 5}}` names a registered method,
but `(params.get("id") or "").strip()` raises `AttributeError` on the
numeric id; the loop terminates with no response written, and the
following well-formed `ping` request is never read, so a decoded request
did terminate the read loop and went unanswered. -/
theorem claim_C1_counterexample :
    json_loads "\x7b\"method\":\"get_user\",\"params\":\x7b\"id\":5\x7d\x7d"
      = some (.obj [("method", .str "get_user"), ("params", .obj [("id", .num 5)])]) ∧
    main_loop "t0"
        ["\x7b\"method\":\"get_user\",\"params\":\x7b\"id\":5\x7d\x7d",
         "\x7b\"id\":\"1\",\"method\":\"ping\"\x7d"] []
      = .crashed [] [] "AttributeError" :=
  ⟨rfl, rfl⟩

/-- Witness for the amended C1 on a three-line script — a ping, an unknown
method and a decode failure — each answered by exactly one output line. -/
theorem claim_C1_witness :
    ∃ out st2, main_loop "t0"
        ["\x7b\"id\":\"1\",\"method\":\"ping\"\x7d",
         "\x7b\"method\":\"nope\"\x7d",
         "not json"] []
      = .finished out st2 ∧ out.length = 3 := by
  have hlines : ∀ l ∈ (["\x7b\"id\":\"1\",\"method\":\"ping\"\x7d",
      "\x7b\"method\":\"nope\"\x7d", "not json"] : List String), LineOK l := by
    intro l hl
    simp only [List.mem_cons, List.not_mem_nil, or_false] at hl
    rcases hl with rfl | rfl | rfl
    · refine Or.inr (Or.inr ⟨JsonV.obj [("id", .str "1"), ("method", .str "ping")],
        rfl, [("id", .str "1"), ("method", .str "ping")], rfl, [], rfl, ?_⟩)
      intro kv hkv
      exact absurd hkv (List.not_mem_nil kv)
    · refine Or.inr (Or.inr ⟨JsonV.obj [("method", .str "nope")],
        rfl, [("method", .str "nope")], rfl, [], rfl, ?_⟩)
      intro kv hkv
      exact absurd hkv (List.not_mem_nil kv)
    · exact Or.inr (Or.inl rfl)
  obtain ⟨out, st2, h1, h2⟩ :=
    (claim_C1_one_response_per_request "t0").1
      ["\x7b\"id\":\"1\",\"method\":\"ping\"\x7d",
       "\x7b\"method\":\"nope\"\x7d", "not json"] [] hlines
  exact ⟨out, st2, h1, h2.trans rfl⟩
